import Mathlib

/-!
Verification of the buffrs dependency/package subsystem.

This file gives a shallow embedding of the two source files of the
repository (`src/main.rs` and `src/registry/artifactory.rs`) and proves
properties of the embedded operations.

Modelling conventions:
* Rust strings are embedded as `List Char` (`Str`); `str::split_once`,
  `str::trim` and `str::contains` are embedded as structurally recursive
  functions with the same first-occurrence semantics.
* Rust character classification (`char::is_lowercase`,
  `char::is_alphanumeric`, `char::is_whitespace`) follows the Unicode
  tables; the embedding states them by explicit code-point ranges,
  restricted to code points below U+0100 for the alphabetic/numeric
  classes (the `White_Space` class is complete: it has only 25 points).
  All concrete inputs used below stay inside that range, where the
  embedded tables agree with the Unicode ones exactly.
* Fallible Rust code returning `eyre::Result` is embedded as `Except`
  with a dedicated error inductive per operation; the distinct `ensure!`
  / `wrap_err` messages of the source become distinct constructors.
* Persistent state (the manifest file, the local package store, the
  OS keyring, the config file) is passed and returned explicitly.
* Async I/O (`reqwest`) is embedded as an explicit transport oracle
  `Request → Except SendErr Response`; `try_join_all` of a batch of
  futures is embedded as a fail-fast traversal of the batch.
* Parts of the crate that are outside the two given source files
  (`PackageId` parsing, `Manifest::read/write`, `PackageStore`, the
  `keyring` crate) are modelled from the spec; each such definition
  carries a doc comment starting with `Modelled from the spec:`.
-/

deriving instance DecidableEq for Except

namespace Buffrs

/-- Rust strings, embedded as lists of characters. -/
abbrev Str := List Char

/-- Rust `char::is_ascii_alphabetic`: `'A'..='Z' | 'a'..='z'`. -/
def is_ascii_alphabetic (c : Char) : Bool :=
  decide (0x41 ≤ c.toNat ∧ c.toNat ≤ 0x5A) || decide (0x61 ≤ c.toNat ∧ c.toNat ≤ 0x7A)

/-- Rust `char::is_lowercase` (the Unicode `Lowercase` property), restricted to
code points below U+0100. On ASCII-alphabetic characters — the only characters
on which `cmd::add` consults it, since it is conjoined with
`is_ascii_alphabetic` — `Lowercase` holds exactly of `'a'..='z'`. -/
def is_lowercase (c : Char) : Bool :=
  decide (0x61 ≤ c.toNat ∧ c.toNat ≤ 0x7A) || decide (c.toNat = 0xAA) ||
  decide (c.toNat = 0xB5) || decide (c.toNat = 0xBA) ||
  decide (0xDF ≤ c.toNat ∧ c.toNat ≤ 0xF6) || decide (0xF8 ≤ c.toNat ∧ c.toNat ≤ 0xFF)

/-- Rust `char::is_alphanumeric` (Unicode `Alphabetic` or general categories
`Nd`/`Nl`/`No`), restricted to code points below U+0100: ASCII digits and
letters, the ordinal indicators U+00AA/U+00BA, micro sign U+00B5, the
superscripts U+00B2/U+00B3/U+00B9, the vulgar fractions U+00BC–U+00BE, and the
Latin-1 letters U+00C0–U+00D6, U+00D8–U+00F6, U+00F8–U+00FF. -/
def is_alphanumeric (c : Char) : Bool :=
  decide (0x30 ≤ c.toNat ∧ c.toNat ≤ 0x39) || decide (0x41 ≤ c.toNat ∧ c.toNat ≤ 0x5A) ||
  decide (0x61 ≤ c.toNat ∧ c.toNat ≤ 0x7A) || decide (c.toNat = 0xAA) ||
  decide (c.toNat = 0xB2) || decide (c.toNat = 0xB3) || decide (c.toNat = 0xB5) ||
  decide (c.toNat = 0xB9) || decide (c.toNat = 0xBA) ||
  decide (0xBC ≤ c.toNat ∧ c.toNat ≤ 0xBE) || decide (0xC0 ≤ c.toNat ∧ c.toNat ≤ 0xD6) ||
  decide (0xD8 ≤ c.toNat ∧ c.toNat ≤ 0xF6) || decide (0xF8 ≤ c.toNat ∧ c.toNat ≤ 0xFF)

/-- Rust `char::is_whitespace`: the complete Unicode `White_Space` set
(25 code points). -/
def is_whitespace (c : Char) : Bool :=
  decide (0x09 ≤ c.toNat ∧ c.toNat ≤ 0x0D) || decide (c.toNat = 0x20) ||
  decide (c.toNat = 0x85) || decide (c.toNat = 0xA0) || decide (c.toNat = 0x1680) ||
  decide (0x2000 ≤ c.toNat ∧ c.toNat ≤ 0x200A) || decide (c.toNat = 0x2028) ||
  decide (c.toNat = 0x2029) || decide (c.toNat = 0x202F) || decide (c.toNat = 0x205F) ||
  decide (c.toNat = 0x3000)

/-- The `lower_kebab` closure of `cmd::add` (main.rs:126):
`(c.is_lowercase() && c.is_ascii_alphabetic()) || c == '-'`. -/
def lower_kebab (c : Char) : Bool :=
  (is_lowercase c && is_ascii_alphabetic c) || decide (c = '-')

/-- Rust `str::split_once(sep)`: splits at the first occurrence of `sep`,
returning the parts before and after it, or `none` when `sep` is absent. -/
def split_once (sep : Char) : Str → Option (Str × Str)
  | [] => none
  | c :: rest =>
    if c = sep then some ([], rest)
    else (split_once sep rest).map (fun p => (c :: p.1, p.2))

/-- Rust `str::trim`: removes leading and trailing whitespace. -/
def trim (s : Str) : Str :=
  ((s.dropWhile is_whitespace).reverse.dropWhile is_whitespace).reverse

/-- Tests whether the second list is an initial segment of the first. -/
def starts_with : Str → Str → Bool
  | _, [] => true
  | [], _ :: _ => false
  | c :: cs, d :: ds => decide (c = d) && starts_with cs ds

/-- Rust `str::contains(pat)` for a literal pattern: substring occurrence. -/
def has_substr : Str → Str → Bool
  | [], needle => needle.isEmpty
  | c :: rest, needle => starts_with (c :: rest) needle || has_substr rest needle

/-- The literal `"-proto-"` required as an infix of repository names. -/
def protoInfix : Str := "-proto-".data

/-! ## The manifest data model (buffrs::manifest, as used by the two files) -/

/-- The per-dependency manifest data `{ repository, version }` (the source
accesses `dependency.manifest.repository` and `dependency.manifest.version`). -/
structure DependencyManifest where
  repository : Str
  version : Str
  deriving DecidableEq

/-- A pinned dependency `{ package, manifest = { repository, version } }`;
equality is field-wise, as derived by the source's `PartialEq`. -/
structure Dependency where
  package : Str
  manifest : DependencyManifest
  deriving DecidableEq

/-- The constructor `Dependency::new(repository, package, version)`. -/
def Dependency.new (repository package version : Str) : Dependency :=
  { package := package, manifest := { repository := repository, version := version } }

/-- The optional `api` section of a manifest. -/
structure ApiManifest where
  name : Str
  version : Str
  description : Option Str
  deriving DecidableEq

/-- The project manifest: optional api declaration and the ordered dependency
list. -/
structure Manifest where
  api : Option ApiManifest
  dependencies : List Dependency
  deriving DecidableEq

/-! ## cmd::add -/

/-- Errors of `cmd::add`; one constructor per distinct `wrap_err`/`ensure!`
message of the source, plus the manifest-read failure. -/
inductive AddErr where
  | invalidSpec
  | invalidRepository
  | notProtoRepository
  | invalidVersion
  | invalidPackageId
  | manifestNotFound
  deriving DecidableEq

/-- The character class of a valid `PackageId`: lowercase ASCII letters and
hyphens. -/
def package_id_char (c : Char) : Bool :=
  decide (0x61 ≤ c.toNat ∧ c.toNat ≤ 0x7A) || decide (c = '-')

/-- Modelled from the spec: `PackageId` parsing (`package.parse::<PackageId>()`;
the `PackageId` implementation is not among the given source files). Per §3 of
the spec, a `PackageId` "must satisfy the same lowercase-kebab-case character
rule enforced on dependency specs (lowercase ascii letters and hyphens only)";
invalid input is rejected at construction. -/
def parsePackageId (s : Str) : Except AddErr Str :=
  if s.all package_id_char then .ok s else .error .invalidPackageId

/-- The version character class checked by `cmd::add`:
`c.is_alphanumeric() || c == '.' || c == '-'`. -/
def version_char (c : Char) : Bool :=
  is_alphanumeric c || decide (c = '.') || decide (c = '-')

/-- The validation pipeline of `cmd::add` (main.rs:125–154), in source order:
trim, split on the first `/`, repository charset check, `-proto-` infix check,
split the remainder on the first `@`, `PackageId` parse, version charset
check. -/
def parseDependency (dependency : Str) : Except AddErr Dependency :=
  match split_once '/' (trim dependency) with
  | none => .error .invalidSpec
  | some (repository, rest) =>
    if repository.all lower_kebab then
      if has_substr repository protoInfix then
        match split_once '@' rest with
        | none => .error .invalidSpec
        | some (package, version) =>
          match parsePackageId package with
          | .error e => .error e
          | .ok package =>
            if version.all version_char then
              .ok (Dependency.new repository package version)
            else .error .invalidVersion
      else .error .notProtoRepository
    else .error .invalidRepository

/-- The command `cmd::add` (main.rs:125–165). All validation precedes
`Manifest::read()`; on success the parsed dependency is pushed at the end of
the dependency list and the manifest is written back. `disk` is the persisted
manifest (`none` when the manifest file is absent); the returned `Option
Manifest` is the persisted manifest after the command. Manifest persistence
itself is modelled from the spec (`read`/`write` are not among the given
source files): `read` fails when the file is absent, `write` replaces it. -/
def addCmd (dependency : Str) (disk : Option Manifest) :
    Except AddErr Unit × Option Manifest :=
  match parseDependency dependency with
  | .error e => (.error e, disk)
  | .ok d =>
    match disk with
    | none => (.error .manifestNotFound, disk)
    | some manifest =>
      (.ok (), some { manifest with dependencies := manifest.dependencies ++ [d] })

/-! ## cmd::remove -/

/-- Errors of `cmd::remove`. -/
inductive RemoveErr where
  | notFound (package : Str)
  | manifestNotFound
  deriving DecidableEq

/-- Modelled from the spec: `PackageStore::uninstall` (§4.2: "removes the
package's on-disk location if present; succeeds (no-op) if already absent").
The store is modelled as the list of installed package ids. -/
def storeUninstall (package : Str) (store : List Str) : List Str :=
  store.filter (fun p => decide (p ≠ package))

/-- The command `cmd::remove` (main.rs:168–185), embedded exactly as written:
it looks up the first dependency `d` with `d.package != package` (the
negation is as in the source), fails with the `NotFound`-style error when no
such entry exists, otherwise removes every entry equal (by full equality) to
the found one via `retain(|d| *d != dependency)`, uninstalls the found
entry's package from the store, and persists the manifest. -/
def removeCmd (package : Str) (disk : Option Manifest) (store : List Str) :
    Except RemoveErr Unit × Option Manifest × List Str :=
  match disk with
  | none => (.error .manifestNotFound, disk, store)
  | some manifest =>
    match manifest.dependencies.find? (fun d => decide (d.package ≠ package)) with
    | none => (.error (.notFound package), some manifest, store)
    | some dependency =>
      (.ok (),
       some { manifest with
              dependencies := manifest.dependencies.filter (fun d => decide (d ≠ dependency)) },
       storeUninstall dependency.package store)

/-! ## The credential store (ArtifactoryConfig + keyring) -/

/-- Modelled from the spec: the OS keyring (the `keyring` crate is external).
An association from `(endpoint, username)` keys to secrets; §6: "holds exactly
one secret string per key". -/
abbrev Keyring := List ((Str × Str) × Str)

/-- Modelled from the spec: `keyring::Entry::get_password` — lookup of the
secret stored under `(endpoint, username)`. -/
def kget (kr : Keyring) (endpoint username : Str) : Option Str :=
  (kr.find? (fun e => decide (e.1 = (endpoint, username)))).map (fun e => e.2)

/-- Modelled from the spec: `keyring::Entry::set_password` — stores the secret
under `(endpoint, username)`, replacing any previous one. -/
def kset (kr : Keyring) (endpoint username secret : Str) : Keyring :=
  ((endpoint, username), secret) :: kr.filter (fun e => decide (e.1 ≠ (endpoint, username)))

/-- Secret-store errors. -/
inductive SecretErr where
  | noEntry
  deriving DecidableEq

/-- Modelled from the spec: `keyring::Entry::delete_password` — deletes the
entry under `(endpoint, username)`; the keyring reports an error when no such
entry exists. -/
def kdelete (kr : Keyring) (endpoint username : Str) : Except SecretErr Keyring :=
  match kget kr endpoint username with
  | none => .error .noEntry
  | some _ => .ok (kr.filter (fun e => decide (e.1 ≠ (endpoint, username))))

/-- The persisted registry connection record (artifactory.rs:91–94): exactly
the fields `url` and `username`; no secret material. -/
structure ArtifactoryConfig where
  url : Str
  username : Str
  deriving DecidableEq

/-- `ArtifactoryConfig::new` (artifactory.rs:98–106): builds the record
`{ url, username }` and stores the password in the keyring under the entry
keyed by `(url.as_str(), username)`. -/
def ArtifactoryConfig.new (url username password : Str) (kr : Keyring) :
    ArtifactoryConfig × Keyring :=
  ({ url := url, username := username }, kset kr url username password)

/-- `ArtifactoryConfig::clear` (artifactory.rs:109–115): deletes the keyring
entry keyed by `(url, username)`, propagating the keyring error. -/
def ArtifactoryConfig.clear (cfg : ArtifactoryConfig) (kr : Keyring) :
    Except SecretErr Keyring :=
  kdelete kr cfg.url cfg.username

/-- `ArtifactoryConfig::password` (artifactory.rs:118–122): looks the secret
up from the keyring entry keyed by `(url, username)` at the moment of use;
`none` means the "please login" failure. -/
def ArtifactoryConfig.password (cfg : ArtifactoryConfig) (kr : Keyring) : Option Str :=
  kget kr cfg.url cfg.username

/-- The persisted configuration (buffrs::config::Config as used by main.rs):
at most one registry connection record. -/
structure Config where
  artifactory : Option ArtifactoryConfig
  deriving DecidableEq

/-- The command `cmd::logout` (main.rs:258–265), embedded exactly as written:
when a connection record exists, `cfg.clear()?` runs first and its `?`
returns the error immediately — in that case neither the in-config record
reset nor `config.write()` happens. Only when `clear` succeeds (or no record
exists) is `config.artifactory` set to `None` and the config persisted. The
third component of the result is the config written to disk (`none` when no
write happened). -/
def logoutCmd (config : Config) (kr : Keyring) :
    Except SecretErr Unit × Keyring × Option Config :=
  match config.artifactory with
  | some cfg =>
    match cfg.clear kr with
    | .error e => (.error e, kr, none)
    | .ok kr2 => (.ok (), kr2, some { artifactory := none })
  | none => (.ok (), kr, some { artifactory := none })

/-! ## The registry protocol (Artifactory) -/

/-- HTTP methods used by the registry client. -/
inductive Method where
  | GET
  | PUT
  deriving DecidableEq

/-- An HTTP request as assembled by the registry client: method, target url,
optional basic-auth credentials `(username, password)`, and body bytes. -/
structure Request where
  method : Method
  url : Str
  auth : Option (Str × Str)
  body : List Nat
  deriving DecidableEq

/-- An HTTP response: status code and body bytes. -/
structure Response where
  status : Nat
  body : List Nat
  deriving DecidableEq

/-- Transport-level failure (connection error of `send()`). -/
inductive SendErr where
  | network
  deriving DecidableEq

/-- The HTTP transport, as an oracle from requests to responses. -/
abbrev Transport := Request → Except SendErr Response

/-- A package artifact `{ name, version, tgz bytes }`; `Package::new`. -/
structure Package where
  name : Str
  version : Str
  tgz : List Nat
  deriving DecidableEq

/-- The constructor `Package::new(name, version, tgz)`. -/
def Package.new (name version : Str) (tgz : List Nat) : Package :=
  { name := name, version := version, tgz := tgz }

/-- Errors of the registry client; one constructor per distinct failure of
the source: missing secret ("please login"), transport failure, and the
two `ensure!` failures that carry the dependency / package name. -/
inductive RegErr where
  | authUnavailable
  | sendFailed (e : SendErr)
  | fetchFailed (dependency : Dependency)
  | publishFailed (name : Str)
  deriving DecidableEq

/-- `reqwest::StatusCode::is_success`: status in `200..=299`. -/
def is_success (status : Nat) : Bool :=
  decide (200 ≤ status ∧ status ≤ 299)

/-- The artifact address convention of both `download` and `publish`
(artifactory.rs:17–26 and 52–57): the `format!` string
`"{}/{}/{}/{}-{}.tgz"` applied to (endpoint url, repository, package,
package, version). The `Url` re-parse of the formatted string is treated as
the identity on the address string. -/
def artifactUri (url repository package version : Str) : Str :=
  url ++ ("/".data) ++ repository ++ ("/".data) ++ package ++ ("/".data) ++
    package ++ ("-".data) ++ version ++ (".tgz".data)

/-- The request assembled by `Artifactory::download` (artifactory.rs:28–32):
`GET` on the artifact uri with basic auth and an empty body. -/
def downloadRequest (cfg : ArtifactoryConfig) (password : Str) (dependency : Dependency) :
    Request :=
  { method := .GET
    url := artifactUri cfg.url dependency.manifest.repository dependency.package
      dependency.manifest.version
    auth := some (cfg.username, password)
    body := [] }

/-- The request assembled by `Artifactory::publish` (artifactory.rs:59–64):
`PUT` on the artifact uri with basic auth and the raw archive bytes as body. -/
def publishRequest (cfg : ArtifactoryConfig) (password : Str) (package : Package)
    (repository : Str) : Request :=
  { method := .PUT
    url := artifactUri cfg.url repository package.name package.version
    auth := some (cfg.username, password)
    body := package.tgz }

/-- `Artifactory::download` (artifactory.rs:16–48): resolves the secret at
call time, sends the `GET` request, fails with the dependency-carrying fetch
error on a non-success status, and otherwise returns
`Package::new(dependency.package, dependency.manifest.version, body)` with
the body bytes unchanged. -/
def Artifactory.download (cfg : ArtifactoryConfig) (kr : Keyring) (t : Transport)
    (dependency : Dependency) : Except RegErr Package :=
  match cfg.password kr with
  | none => .error .authUnavailable
  | some password =>
    match t (downloadRequest cfg password dependency) with
    | .error e => .error (.sendFailed e)
    | .ok response =>
      if is_success response.status then
        .ok (Package.new dependency.package dependency.manifest.version response.body)
      else
        .error (.fetchFailed dependency)

/-- `Artifactory::publish` (artifactory.rs:51–80): resolves the secret at
call time, sends the `PUT` request with the archive bytes, and fails with the
name-carrying publish error on a non-success status. -/
def Artifactory.publish (cfg : ArtifactoryConfig) (kr : Keyring) (t : Transport)
    (package : Package) (repository : Str) : Except RegErr Unit :=
  match cfg.password kr with
  | none => .error .authUnavailable
  | some password =>
    match t (publishRequest cfg password package repository) with
    | .error e => .error (.sendFailed e)
    | .ok response =>
      if is_success response.status then .ok ()
      else .error (.publishFailed package.name)

/-! ## cmd::install -/

/-- Errors of `cmd::install`. -/
inductive InstallErr where
  | loginRequired
  | manifestNotFound
  | reg (e : RegErr)
  deriving DecidableEq

/-- The download batch of `cmd::install` (main.rs:216–222):
`try_join_all` over the download of every dependency, embedded as a
fail-fast traversal — the result is the list of all downloaded packages, or
the error of a failed download. -/
def downloadAll (dl : Dependency → Except RegErr Package) :
    List Dependency → Except RegErr (List Package)
  | [] => .ok []
  | d :: ds =>
    match dl d with
    | .error e => .error e
    | .ok p =>
      match downloadAll dl ds with
      | .error e => .error e
      | .ok ps => .ok (p :: ps)

/-- Modelled from the spec: `PackageStore::install` (§4.2: unpacks into the
store's per-package location keyed by package identity; re-installing
overwrites prior contents). The store is modelled as the list of installed
packages, newest first, unique by name. -/
def storeInstall (package : Package) (store : List Package) : List Package :=
  package :: store.filter (fun q => decide (q.name ≠ package.name))

/-- The command `cmd::install` (main.rs:205–233): requires a configured
registry connection, reads the manifest, downloads every dependency as one
fail-fast batch, and only when the whole batch succeeded installs each
downloaded package into the store. The returned list is the store after the
command. -/
def installCmd (artifactory : Option ArtifactoryConfig) (kr : Keyring) (t : Transport)
    (disk : Option Manifest) (store : List Package) :
    Except InstallErr Unit × List Package :=
  match artifactory with
  | none => (.error .loginRequired, store)
  | some cfg =>
    match disk with
    | none => (.error .manifestNotFound, store)
    | some manifest =>
      match downloadAll (Artifactory.download cfg kr t) manifest.dependencies with
      | .error e => (.error (.reg e), store)
      | .ok packages => (.ok (), packages.foldl (fun s p => storeInstall p s) store)

/-! ## Supporting lemmas -/

/-- Characters accepted by `lower_kebab` are lowercase ASCII letters or the
hyphen. -/
lemma lower_kebab_toNat {c : Char} (h : lower_kebab c = true) :
    (0x61 ≤ c.toNat ∧ c.toNat ≤ 0x7A) ∨ c.toNat = 0x2D := by
  simp only [lower_kebab, is_lowercase, is_ascii_alphabetic, Bool.or_eq_true, Bool.and_eq_true,
    decide_eq_true_eq] at h
  rcases h with ⟨h1, h2⟩ | h3
  · omega
  · right
    rw [h3]
    decide

/-- Characters accepted by `package_id_char` are lowercase ASCII letters or
the hyphen. -/
lemma package_id_char_toNat {c : Char} (h : package_id_char c = true) :
    (0x61 ≤ c.toNat ∧ c.toNat ≤ 0x7A) ∨ c.toNat = 0x2D := by
  simp only [package_id_char, Bool.or_eq_true, decide_eq_true_eq] at h
  rcases h with h1 | h2
  · omega
  · right
    rw [h2]
    decide

/-- Coarse code-point bounds for characters accepted by `version_char`. -/
lemma version_char_toNat {c : Char} (h : version_char c = true) :
    (0x2D ≤ c.toNat ∧ c.toNat ≤ 0x2E) ∨ (0x30 ≤ c.toNat ∧ c.toNat ≤ 0x39) ∨
    (0x41 ≤ c.toNat ∧ c.toNat ≤ 0x5A) ∨ (0x61 ≤ c.toNat ∧ c.toNat ≤ 0x7A) ∨
    (0xAA ≤ c.toNat ∧ c.toNat ≤ 0xFF) := by
  simp only [version_char, is_alphanumeric, Bool.or_eq_true, decide_eq_true_eq] at h
  rcases h with (h | h) | h
  · omega
  · rw [h]
    decide
  · rw [h]
    decide

/-- Code-point characterization of the `White_Space` table. -/
lemma ws_toNat {c : Char} (h : is_whitespace c = true) :
    (0x09 ≤ c.toNat ∧ c.toNat ≤ 0x0D) ∨ c.toNat = 0x20 ∨ c.toNat = 0x85 ∨
    c.toNat = 0xA0 ∨ c.toNat = 0x1680 ∨ (0x2000 ≤ c.toNat ∧ c.toNat ≤ 0x200A) ∨
    c.toNat = 0x2028 ∨ c.toNat = 0x2029 ∨ c.toNat = 0x202F ∨ c.toNat = 0x205F ∨
    c.toNat = 0x3000 := by
  simp only [is_whitespace, Bool.or_eq_true, decide_eq_true_eq] at h
  omega

/-- Characters distinct on code points are distinct. -/
lemma ne_of_toNat_ne {c d : Char} (h : c.toNat ≠ d.toNat) : c ≠ d :=
  fun e => h (congrArg Char.toNat e)

/-- Repository characters are not whitespace. -/
lemma not_ws_of_lower_kebab {c : Char} (h : lower_kebab c = true) :
    is_whitespace c = false := by
  cases hw : is_whitespace c
  · rfl
  · exfalso
    have h1 := lower_kebab_toNat h
    have h2 := ws_toNat hw
    omega

/-- Package-id characters are not whitespace. -/
lemma not_ws_of_package_id_char {c : Char} (h : package_id_char c = true) :
    is_whitespace c = false := by
  cases hw : is_whitespace c
  · rfl
  · exfalso
    have h1 := package_id_char_toNat h
    have h2 := ws_toNat hw
    omega

/-- Version characters are not whitespace. -/
lemma not_ws_of_version_char {c : Char} (h : version_char c = true) :
    is_whitespace c = false := by
  cases hw : is_whitespace c
  · rfl
  · exfalso
    have h1 := version_char_toNat h
    have h2 := ws_toNat hw
    omega

/-- Repository characters are not the `/` separator. -/
lemma ne_slash_of_lower_kebab {c : Char} (h : lower_kebab c = true) : c ≠ '/' := by
  have h1 := lower_kebab_toNat h
  refine ne_of_toNat_ne ?_
  have : ('/').toNat = 0x2F := by decide
  omega

/-- Package-id characters are not the `@` separator. -/
lemma ne_at_of_package_id_char {c : Char} (h : package_id_char c = true) : c ≠ '@' := by
  have h1 := package_id_char_toNat h
  refine ne_of_toNat_ne ?_
  have : ('@').toNat = 0x40 := by decide
  omega

/-- `split_once` on a list assembled around its first separator occurrence
recovers the two parts. -/
lemma split_once_append (sep : Char) (a b : Str) (h : ∀ c ∈ a, c ≠ sep) :
    split_once sep (a ++ sep :: b) = some (a, b) := by
  induction a with
  | nil => simp [split_once]
  | cons c cs ih =>
    have hc : c ≠ sep := h c (List.mem_cons_self c cs)
    have ih2 := ih (fun x hx => h x (List.mem_cons_of_mem c hx))
    simp [split_once, hc, ih2]

/-- `dropWhile` is the identity when no element satisfies the predicate. -/
lemma dropWhile_eq_self {p : Char → Bool} {s : Str} (h : ∀ c ∈ s, p c = false) :
    s.dropWhile p = s := by
  cases s with
  | nil => rfl
  | cons c cs =>
    have hc := h c (List.mem_cons_self c cs)
    simp [List.dropWhile_cons, hc]

/-- `trim` is the identity on whitespace-free strings. -/
lemma trim_eq_self {s : Str} (h : ∀ c ∈ s, is_whitespace c = false) : trim s = s := by
  unfold trim
  rw [dropWhile_eq_self h]
  rw [dropWhile_eq_self (fun c hc => h c (List.mem_reverse.mp hc))]
  exact List.reverse_reverse s

/-- After filtering an `(endpoint, username)` key out of the keyring, lookup
of that key fails. -/
lemma kget_erase (kr : Keyring) (e u : Str) :
    kget (kr.filter (fun p => decide (p.1 ≠ (e, u)))) e u = none := by
  simp only [kget, Option.map_eq_none']
  rw [List.find?_eq_none]
  intro x hx
  have hmem := (List.mem_filter.mp hx).2
  simp only [decide_eq_true_eq] at hmem ⊢
  exact hmem

/-- A fail-fast download batch with a failing member fails with the error of
a failing member. -/
lemma downloadAll_error_of_mem (dl : Dependency → Except RegErr Package)
    (deps : List Dependency) (hd : ∃ d ∈ deps, ∃ e, dl d = .error e) :
    ∃ e, downloadAll dl deps = .error e ∧ ∃ d ∈ deps, dl d = .error e := by
  induction deps with
  | nil =>
    rcases hd with ⟨d, hmem, _⟩
    simp at hmem
  | cons d ds ih =>
    cases hdl : dl d with
    | error e =>
      exact ⟨e, by simp [downloadAll, hdl], d, List.mem_cons_self d ds, hdl⟩
    | ok p =>
      have hd' : ∃ x ∈ ds, ∃ e, dl x = .error e := by
        rcases hd with ⟨x, hmem, e, he⟩
        rcases List.mem_cons.mp hmem with rfl | hmem'
        · rw [hdl] at he
          exact absurd he (by simp)
        · exact ⟨x, hmem', e, he⟩
      rcases ih hd' with ⟨e, hda, x, hmem', he'⟩
      refine ⟨e, ?_, x, List.mem_cons_of_mem _ hmem', he'⟩
      simp [downloadAll, hdl, hda]

/-! ## Claim theorems -/

/-- C1: the remove operation is claimed to fail with a `NotFound`-style error
exactly when no dependency's package equals the target, and otherwise to
remove the matching entry and uninstall it. The code inverts the match
(`find(|d| d.package != package)`), so at the failing input — a manifest
whose single dependency IS the requested package `foo`, with `foo` installed
in the store — the command fails with the `NotFound` error, removes nothing
and uninstalls nothing, contradicting the claim. -/
theorem remove_inverted_match_bug :
    removeCmd ("foo".data)
      (some { api := none,
              dependencies := [Dependency.new ("abc-proto-x".data) ("foo".data) ("1.0.0".data)] })
      [("foo".data)] =
    (.error (.notFound ("foo".data)),
     some { api := none,
            dependencies := [Dependency.new ("abc-proto-x".data) ("foo".data) ("1.0.0".data)] },
     [("foo".data)]) := by
  decide

/-- C2 counterexample: adding the spec `abc-proto-x/foo@2.0.0` to a manifest
already containing a dependency on package `foo` succeeds and yields a
manifest with TWO entries whose package is `foo`, so add does produce
duplicate package identities. -/
theorem add_duplicate_package_cex :
    ((addCmd ("abc-proto-x/foo@2.0.0".data)
        (some { api := none,
                dependencies := [Dependency.new ("abc-proto-x".data) ("foo".data) ("1.0.0".data)] })).2.map
      (fun m => (m.dependencies.filter (fun d => decide (d.package = ("foo".data)))).length)) =
    some 2 := by
  decide

/-- C2 amended: the add operation appends the parsed dependency at the end of
the dependency list unconditionally, with no duplicate check; in particular,
when the manifest already contains an entry for the parsed package, the
resulting manifest contains at least two entries for that package. -/
theorem add_appends_unconditionally (s : Str) (m : Manifest) (d : Dependency)
    (h : parseDependency s = .ok d) :
    addCmd s (some m) = (.ok (), some { m with dependencies := m.dependencies ++ [d] }) ∧
    (1 ≤ (m.dependencies.filter (fun x => decide (x.package = d.package))).length →
      ∃ m2, (addCmd s (some m)).2 = some m2 ∧
        2 ≤ (m2.dependencies.filter (fun x => decide (x.package = d.package))).length) := by
  have hcmd : addCmd s (some m) =
      (.ok (), some { m with dependencies := m.dependencies ++ [d] }) := by
    simp [addCmd, h]
  refine ⟨hcmd, fun hdup => ⟨{ m with dependencies := m.dependencies ++ [d] }, by rw [hcmd], ?_⟩⟩
  have hone : (List.filter (fun x => decide (x.package = d.package)) [d]).length = 1 := by
    simp
  rw [List.filter_append, List.length_append, hone]
  omega

/-- C2 amended, witnessed at a concrete duplicate-producing input. -/
theorem add_appends_unconditionally_witness :
    ∃ m2,
      (addCmd ("abc-proto-x/foo@2.0.0".data)
        (some { api := none,
                dependencies := [Dependency.new ("abc-proto-x".data) ("foo".data) ("1.0.0".data)] })).2 =
        some m2 ∧
      2 ≤ (m2.dependencies.filter
            (fun x => decide (x.package =
              (Dependency.new ("abc-proto-x".data) ("foo".data) ("2.0.0".data)).package))).length :=
  (add_appends_unconditionally ("abc-proto-x/foo@2.0.0".data)
    { api := none,
      dependencies := [Dependency.new ("abc-proto-x".data) ("foo".data) ("1.0.0".data)] }
    (Dependency.new ("abc-proto-x".data) ("foo".data) ("2.0.0".data))
    (by decide)).2 (by decide)

/-- C3: for every dependency-spec string that is missing the `/` or `@`
separator, or whose repository part violates the lowercase-kebab charset or
lacks the `-proto-` infix, or whose package part is an invalid `PackageId`,
or whose version part contains a character outside alphanumerics, `.` and
`-`, the add operation returns a validation error and the persisted manifest
is left unmodified. -/
theorem add_invalid_spec_no_mutation (s : Str) (disk : Option Manifest)
    (h : split_once '/' (trim s) = none ∨
      ∃ repository rest, split_once '/' (trim s) = some (repository, rest) ∧
        (repository.all lower_kebab = false ∨
         has_substr repository protoInfix = false ∨
         split_once '@' rest = none ∨
         ∃ package version, split_once '@' rest = some (package, version) ∧
           (package.all package_id_char = false ∨ version.all version_char = false))) :
    ∃ e, addCmd s disk = (.error e, disk) := by
  have hp : ∃ e, parseDependency s = .error e := by
    unfold parseDependency
    rcases h with h0 | ⟨repository, rest, hsp, hbad⟩
    · rw [h0]
      exact ⟨_, rfl⟩
    · rw [hsp]
      rcases hbad with hra | hpi | hat | ⟨package, version, hat2, hbad2⟩
      · simp only [hra]
        exact ⟨_, rfl⟩
      · cases hall : repository.all lower_kebab
        · simp only [hall]
          exact ⟨_, rfl⟩
        · simp only [hall, hpi]
          exact ⟨_, rfl⟩
      · cases hall : repository.all lower_kebab
        · simp only [hall]
          exact ⟨_, rfl⟩
        · cases hhs : has_substr repository protoInfix
          · simp only [hall, hhs]
            exact ⟨_, rfl⟩
          · simp only [hall, hhs, hat]
            exact ⟨_, rfl⟩
      · cases hall : repository.all lower_kebab
        · simp only [hall]
          exact ⟨_, rfl⟩
        · cases hhs : has_substr repository protoInfix
          · simp only [hall, hhs]
            exact ⟨_, rfl⟩
          · simp only [hall, hhs, hat2]
            rcases hbad2 with hpk | hver
            · simp only [parsePackageId, hpk]
              exact ⟨_, rfl⟩
            · cases hpkall : package.all package_id_char
              · simp only [parsePackageId, hpkall]
                exact ⟨_, rfl⟩
              · simp only [parsePackageId, hpkall, hver]
                exact ⟨_, rfl⟩
  rcases hp with ⟨e, he⟩
  exact ⟨e, by simp [addCmd, he]⟩

/-- C3, witnessed at the spec's own example of an invalid string: the
underscored repository `org_proto_stable/foo@1.0.0` violates the
lowercase-kebab charset, and add leaves the persisted manifest unchanged. -/
theorem add_invalid_spec_no_mutation_witness :
    ∃ e, addCmd ("org_proto_stable/foo@1.0.0".data)
      (some { api := none,
              dependencies := [Dependency.new ("abc-proto-x".data) ("foo".data) ("1.0.0".data)] }) =
      (.error e,
       some { api := none,
              dependencies := [Dependency.new ("abc-proto-x".data) ("foo".data) ("1.0.0".data)] }) :=
  add_invalid_spec_no_mutation ("org_proto_stable/foo@1.0.0".data)
    (some { api := none,
            dependencies := [Dependency.new ("abc-proto-x".data) ("foo".data) ("1.0.0".data)] })
    (Or.inr ⟨("org_proto_stable".data), ("foo@1.0.0".data), by decide, Or.inl (by decide)⟩)

/-- C4 counterexample: with a connection record present and no secret-store
entry for it, `logout` does not succeed as a no-op: the secret deletion fails
and, because of the early `?` return, the connection metadata is never
cleared — nothing is persisted, so the connection record survives in the
persisted config, contradicting "removed from the persisted config in either
case". -/
theorem logout_skips_config_clear_cex :
    logoutCmd
      { artifactory := some { url := ("https://example.com/artifactory".data),
                              username := ("user".data) } }
      [] =
    (.error .noEntry, [], none) := by
  decide

/-- C4 amended: when no connection record exists, logout persists a config
with no connection and succeeds. When a record exists, logout first deletes
the secret-store entry; if that deletion fails (in particular when the entry
is absent, which the secret store reports as an error), logout returns the
error without clearing or persisting the config; only when the deletion
succeeds is the connection record cleared, the config persisted, and the
secret gone from the store. -/
theorem logout_clear_gates_config_write (kr : Keyring) (cfg : ArtifactoryConfig) :
    logoutCmd { artifactory := none } kr = (.ok (), kr, some { artifactory := none }) ∧
    (kget kr cfg.url cfg.username = none →
      logoutCmd { artifactory := some cfg } kr = (.error .noEntry, kr, none)) ∧
    (∀ pw, kget kr cfg.url cfg.username = some pw →
      logoutCmd { artifactory := some cfg } kr =
        (.ok (), kr.filter (fun p => decide (p.1 ≠ (cfg.url, cfg.username))),
         some { artifactory := none }) ∧
      kget (logoutCmd { artifactory := some cfg } kr).2.1 cfg.url cfg.username = none) := by
  refine ⟨rfl, ?_, ?_⟩
  · intro h
    simp [logoutCmd, ArtifactoryConfig.clear, kdelete, h]
  · intro pw h
    have hcmd : logoutCmd { artifactory := some cfg } kr =
        (.ok (), kr.filter (fun p => decide (p.1 ≠ (cfg.url, cfg.username))),
         some { artifactory := none }) := by
      simp [logoutCmd, ArtifactoryConfig.clear, kdelete, h]
    exact ⟨hcmd, by rw [hcmd]; exact kget_erase kr cfg.url cfg.username⟩

/-- C4 amended, witnessed at a keyring that does hold the entry: logout
succeeds, persists the cleared config, and the secret is gone. -/
theorem logout_clear_gates_config_write_witness :
    logoutCmd
        { artifactory := some { url := ("https://e".data), username := ("u".data) } }
        [((("https://e".data), ("u".data)), ("tok".data))] =
      (.ok (), [], some { artifactory := none }) ∧
    kget
        (logoutCmd
          { artifactory := some { url := ("https://e".data), username := ("u".data) } }
          [((("https://e".data), ("u".data)), ("tok".data))]).2.1
        ("https://e".data) ("u".data) = none := by
  have h := (logout_clear_gates_config_write
    [((("https://e".data), ("u".data)), ("tok".data))]
    { url := ("https://e".data), username := ("u".data) }).2.2 ("tok".data) (by decide)
  exact ⟨by rw [h.1]; decide, h.2⟩

/-- C5: the install command performs the whole download batch first; if the
download of any declared dependency fails, the command returns a download
error — the error of a failing dependency — and the package store is left
exactly as it was: no install is started. -/
theorem install_fail_fast (cfg : ArtifactoryConfig) (kr : Keyring) (t : Transport)
    (manifest : Manifest) (store : List Package)
    (h : ∃ dep ∈ manifest.dependencies, ∃ e, Artifactory.download cfg kr t dep = .error e) :
    ∃ e, installCmd (some cfg) kr t (some manifest) store = (.error (.reg e), store) ∧
      ∃ dep ∈ manifest.dependencies, Artifactory.download cfg kr t dep = .error e := by
  rcases downloadAll_error_of_mem (Artifactory.download cfg kr t) manifest.dependencies h with
    ⟨e, hda, hdep⟩
  exact ⟨e, by simp [installCmd, hda], hdep⟩

/-- C5, witnessed against a transport that answers 404 to everything: with
two declared dependencies, install returns the fetch error and installs
nothing. -/
theorem install_fail_fast_witness :
    ∃ e, installCmd
        (some { url := ("https://e".data), username := ("u".data) })
        [((("https://e".data), ("u".data)), ("tok".data))]
        (fun _ => .ok { status := 404, body := [] })
        (some { api := none,
                dependencies := [Dependency.new ("abc-proto-x".data) ("foo".data) ("1.0.0".data),
                                 Dependency.new ("abc-proto-x".data) ("bar".data) ("2.0.0".data)] })
        [] =
      (.error (.reg e), []) ∧
      ∃ dep ∈ [Dependency.new ("abc-proto-x".data) ("foo".data) ("1.0.0".data),
               Dependency.new ("abc-proto-x".data) ("bar".data) ("2.0.0".data)],
        Artifactory.download { url := ("https://e".data), username := ("u".data) }
          [((("https://e".data), ("u".data)), ("tok".data))]
          (fun _ => .ok { status := 404, body := [] }) dep = .error e :=
  install_fail_fast
    { url := ("https://e".data), username := ("u".data) }
    [((("https://e".data), ("u".data)), ("tok".data))]
    (fun _ => .ok { status := 404, body := [] })
    { api := none,
      dependencies := [Dependency.new ("abc-proto-x".data) ("foo".data) ("1.0.0".data),
                       Dependency.new ("abc-proto-x".data) ("bar".data) ("2.0.0".data)] }
    []
    ⟨Dependency.new ("abc-proto-x".data) ("foo".data) ("1.0.0".data), by decide,
     .fetchFailed (Dependency.new ("abc-proto-x".data) ("foo".data) ("1.0.0".data)), by decide⟩

/-- C6: for every spec string `<repo>/<pkg>@<ver>` whose repository satisfies
the lowercase-kebab charset and contains the `-proto-` infix, whose package is
a valid `PackageId`, and whose version satisfies the version charset, parsing
succeeds — the first `/` split recovers the repository, the first `@` split
recovers package and version — and the parsed fields reconstruct the original
spec string. -/
theorem parse_dependency_roundtrip (repository package version : Str)
    (h1 : repository.all lower_kebab = true)
    (h2 : has_substr repository protoInfix = true)
    (h3 : package.all package_id_char = true)
    (h4 : version.all version_char = true) :
    parseDependency (repository ++ ('/' :: (package ++ ('@' :: version)))) =
      .ok (Dependency.new repository package version) ∧
    (Dependency.new repository package version).manifest.repository ++
      ('/' :: ((Dependency.new repository package version).package ++
        ('@' :: (Dependency.new repository package version).manifest.version))) =
      repository ++ ('/' :: (package ++ ('@' :: version))) := by
  have hr : ∀ c ∈ repository, lower_kebab c = true := List.all_eq_true.mp h1
  have hpk : ∀ c ∈ package, package_id_char c = true := List.all_eq_true.mp h3
  have hv : ∀ c ∈ version, version_char c = true := List.all_eq_true.mp h4
  have hws : ∀ c ∈ repository ++ ('/' :: (package ++ ('@' :: version))),
      is_whitespace c = false := by
    intro c hc
    rcases List.mem_append.mp hc with hc1 | hc2
    · exact not_ws_of_lower_kebab (hr c hc1)
    · rcases List.mem_cons.mp hc2 with rfl | hc3
      · decide
      · rcases List.mem_append.mp hc3 with hc4 | hc5
        · exact not_ws_of_package_id_char (hpk c hc4)
        · rcases List.mem_cons.mp hc5 with rfl | hc6
          · decide
          · exact not_ws_of_version_char (hv c hc6)
  have htrim := trim_eq_self hws
  have hsl : split_once '/' (repository ++ ('/' :: (package ++ ('@' :: version)))) =
      some (repository, package ++ ('@' :: version)) :=
    split_once_append '/' repository (package ++ ('@' :: version))
      (fun c hc => ne_slash_of_lower_kebab (hr c hc))
  have hat : split_once '@' (package ++ ('@' :: version)) = some (package, version) :=
    split_once_append '@' package version
      (fun c hc => ne_at_of_package_id_char (hpk c hc))
  refine ⟨?_, rfl⟩
  unfold parseDependency
  rw [htrim, hsl]
  simp only [h1, h2, hat, parsePackageId, h3, h4, if_true]

/-- C6, witnessed at the spec's own example `org-proto-stable/foo@1.0.0`. -/
theorem parse_dependency_roundtrip_witness :
    parseDependency (("org-proto-stable".data) ++
        ('/' :: (("foo".data) ++ ('@' :: ("1.0.0".data))))) =
      .ok (Dependency.new ("org-proto-stable".data) ("foo".data) ("1.0.0".data)) ∧
    (Dependency.new ("org-proto-stable".data) ("foo".data) ("1.0.0".data)).manifest.repository ++
      ('/' :: ((Dependency.new ("org-proto-stable".data) ("foo".data) ("1.0.0".data)).package ++
        ('@' :: (Dependency.new ("org-proto-stable".data) ("foo".data)
          ("1.0.0".data)).manifest.version))) =
      ("org-proto-stable".data) ++ ('/' :: (("foo".data) ++ ('@' :: ("1.0.0".data)))) :=
  parse_dependency_roundtrip ("org-proto-stable".data) ("foo".data) ("1.0.0".data)
    (by decide) (by decide) (by decide) (by decide)

/-- C7: with the secret available, download and publish address the artifact
at exactly `{endpoint}/{repository}/{package}/{package}-{version}.tgz`;
download is a `GET` with empty body, publish a `PUT` whose body is the raw
archive bytes; both attach basic authentication `(username, secret)`; and
each succeeds exactly when the transport answers with a 2xx status
(`200..=299`). -/
theorem registry_wire_contract (cfg : ArtifactoryConfig) (kr : Keyring) (t : Transport)
    (dependency : Dependency) (package : Package) (repository : Str) (password : Str)
    (h : kget kr cfg.url cfg.username = some password) :
    (downloadRequest cfg password dependency).url =
      cfg.url ++ ("/".data) ++ dependency.manifest.repository ++ ("/".data) ++
        dependency.package ++ ("/".data) ++ dependency.package ++ ("-".data) ++
        dependency.manifest.version ++ (".tgz".data) ∧
    (downloadRequest cfg password dependency).method = .GET ∧
    (downloadRequest cfg password dependency).auth = some (cfg.username, password) ∧
    (downloadRequest cfg password dependency).body = [] ∧
    (publishRequest cfg password package repository).url =
      cfg.url ++ ("/".data) ++ repository ++ ("/".data) ++ package.name ++ ("/".data) ++
        package.name ++ ("-".data) ++ package.version ++ (".tgz".data) ∧
    (publishRequest cfg password package repository).method = .PUT ∧
    (publishRequest cfg password package repository).auth = some (cfg.username, password) ∧
    (publishRequest cfg password package repository).body = package.tgz ∧
    (∀ status, is_success status = true ↔ 200 ≤ status ∧ status ≤ 299) ∧
    ((∃ p, Artifactory.download cfg kr t dependency = .ok p) ↔
      ∃ response, t (downloadRequest cfg password dependency) = .ok response ∧
        is_success response.status = true) ∧
    (Artifactory.publish cfg kr t package repository = .ok () ↔
      ∃ response, t (publishRequest cfg password package repository) = .ok response ∧
        is_success response.status = true) := by
  have hpw : ArtifactoryConfig.password cfg kr = some password := h
  refine ⟨rfl, rfl, rfl, rfl, rfl, rfl, rfl, rfl, ?_, ?_, ?_⟩
  · intro status
    simp [is_success]
  · cases ht : t (downloadRequest cfg password dependency) with
    | error e => simp [Artifactory.download, hpw, ht]
    | ok response =>
      cases hs : is_success response.status with
      | false => simp [Artifactory.download, hpw, ht, hs]
      | true => simp [Artifactory.download, hpw, ht, hs]
  · cases ht : t (publishRequest cfg password package repository) with
    | error e => simp [Artifactory.publish, hpw, ht]
    | ok response =>
      cases hs : is_success response.status with
      | false => simp [Artifactory.publish, hpw, ht, hs]
      | true => simp [Artifactory.publish, hpw, ht, hs]

/-- C7, witnessed with a transport answering 200: download succeeds. -/
theorem registry_wire_contract_witness :
    ∃ p, Artifactory.download
      { url := ("https://e".data), username := ("u".data) }
      [((("https://e".data), ("u".data)), ("tok".data))]
      (fun _ => .ok { status := 200, body := [9] })
      (Dependency.new ("abc-proto-x".data) ("foo".data) ("1.0.0".data)) = .ok p := by
  have h := registry_wire_contract
    { url := ("https://e".data), username := ("u".data) }
    [((("https://e".data), ("u".data)), ("tok".data))]
    (fun _ => .ok { status := 200, body := [9] })
    (Dependency.new ("abc-proto-x".data) ("foo".data) ("1.0.0".data))
    (Package.new ("foo".data) ("1.0.0".data) [9]) ("abc-proto-x".data) ("tok".data)
    (by decide)
  obtain ⟨-, -, -, -, -, -, -, -, -, hdl, -⟩ := h
  exact hdl.mpr ⟨{ status := 200, body := [9] }, by decide, by decide⟩

/-- C8: once the transport has delivered a response, download fails with the
error carrying exactly that dependency precisely when the response status is
not a success status; on a success status it returns the package whose name
and version come from the dependency and whose archive bytes are the
response body unchanged. -/
theorem download_status_behavior (cfg : ArtifactoryConfig) (kr : Keyring) (t : Transport)
    (dependency : Dependency) (password : Str) (response : Response)
    (hpw : kget kr cfg.url cfg.username = some password)
    (ht : t (downloadRequest cfg password dependency) = .ok response) :
    (Artifactory.download cfg kr t dependency = .error (.fetchFailed dependency) ↔
      is_success response.status = false) ∧
    (is_success response.status = true →
      Artifactory.download cfg kr t dependency =
        .ok (Package.new dependency.package dependency.manifest.version response.body)) := by
  have hpw2 : ArtifactoryConfig.password cfg kr = some password := hpw
  cases hs : is_success response.status with
  | false => simp [Artifactory.download, hpw2, ht, hs]
  | true => simp [Artifactory.download, hpw2, ht, hs]

/-- C8, witnessed against a transport answering 404: download fails with the
fetch error carrying the dependency. -/
theorem download_status_behavior_witness :
    Artifactory.download
      { url := ("https://e".data), username := ("u".data) }
      [((("https://e".data), ("u".data)), ("tok".data))]
      (fun _ => .ok { status := 404, body := [] })
      (Dependency.new ("abc-proto-x".data) ("foo".data) ("1.0.0".data)) =
    .error (.fetchFailed (Dependency.new ("abc-proto-x".data) ("foo".data) ("1.0.0".data))) := by
  have h := download_status_behavior
    { url := ("https://e".data), username := ("u".data) }
    [((("https://e".data), ("u".data)), ("tok".data))]
    (fun _ => .ok { status := 404, body := [] })
    (Dependency.new ("abc-proto-x".data) ("foo".data) ("1.0.0".data))
    ("tok".data) { status := 404, body := [] } (by decide) (by decide)
  exact h.1.mpr (by decide)

/-- C9: the record persisted by login holds exactly the endpoint url and the
username — it is the same whatever the password, which goes only to the
keyring entry keyed by `(url, username)` — and when the keyring holds no
secret under `(url, username)`, both download and publish fail with the
login-required error, the secret being resolved from the keyring at the
moment of each call. -/
theorem config_stores_no_secret (url username password : Str) (kr : Keyring)
    (cfg : ArtifactoryConfig) (t : Transport) (dependency : Dependency)
    (package : Package) (repository : Str) :
    (ArtifactoryConfig.new url username password kr).1 =
      { url := url, username := username } ∧
    (kget kr cfg.url cfg.username = none →
      Artifactory.download cfg kr t dependency = .error .authUnavailable ∧
      Artifactory.publish cfg kr t package repository = .error .authUnavailable) := by
  refine ⟨rfl, fun h => ⟨?_, ?_⟩⟩
  · simp [Artifactory.download, ArtifactoryConfig.password, h]
  · simp [Artifactory.publish, ArtifactoryConfig.password, h]

/-- C9, witnessed at an empty keyring. -/
theorem config_stores_no_secret_witness :
    (ArtifactoryConfig.new ("https://e".data) ("u".data) ("tok".data) []).1 =
      { url := ("https://e".data), username := ("u".data) } ∧
    Artifactory.download { url := ("https://e".data), username := ("u".data) } []
      (fun _ => .ok { status := 200, body := [] })
      (Dependency.new ("abc-proto-x".data) ("foo".data) ("1.0.0".data)) =
      .error .authUnavailable ∧
    Artifactory.publish { url := ("https://e".data), username := ("u".data) } []
      (fun _ => .ok { status := 200, body := [] })
      (Package.new ("foo".data) ("1.0.0".data) []) ("abc-proto-x".data) =
      .error .authUnavailable := by
  have h := config_stores_no_secret ("https://e".data) ("u".data) ("tok".data) []
    { url := ("https://e".data), username := ("u".data) }
    (fun _ => .ok { status := 200, body := [] })
    (Dependency.new ("abc-proto-x".data) ("foo".data) ("1.0.0".data))
    (Package.new ("foo".data) ("1.0.0".data) []) ("abc-proto-x".data)
  exact ⟨h.1, (h.2 (by decide)).1, (h.2 (by decide)).2⟩

/-- C10: the version check of add uses the Unicode-alphanumeric class, not
just ASCII: the spec `abc-proto-x/foo@1.0é` — whose version contains the
non-ASCII letter `é` — is accepted, while the repository character check
rejects every non-ASCII character. -/
theorem add_version_unicode_repo_ascii :
    parseDependency ("abc-proto-x/foo@1.0é".data) =
      .ok (Dependency.new ("abc-proto-x".data) ("foo".data) ("1.0é".data)) ∧
    (∀ c : Char, 0x80 ≤ c.toNat → lower_kebab c = false) := by
  refine ⟨by decide, fun c hc => ?_⟩
  cases hk : lower_kebab c with
  | false => rfl
  | true =>
    exfalso
    have h1 := lower_kebab_toNat hk
    omega

/-- C10, witnessed at `é` itself. -/
theorem add_version_unicode_repo_ascii_witness :
    (0x80 ≤ ('é').toNat) ∧ lower_kebab 'é' = false ∧
    parseDependency ("abc-proto-x/foo@1.0é".data) =
      .ok (Dependency.new ("abc-proto-x".data) ("foo".data) ("1.0é".data)) :=
  ⟨by decide, add_version_unicode_repo_ascii.2 'é' (by decide),
   add_version_unicode_repo_ascii.1⟩

end Buffrs
